import Mathlib

/-!
Verification of the NPC chat pipeline (`npc_chat.py`) against its
natural-language specification.

The Python source is shallowly embedded below.  Strings are modelled by
Lean `String`/`List Char`; Python's `str.lower` is modelled by ASCII
`Char.toLower` (all keyword constants are ASCII); Python dictionaries of
player states are modelled by total functions with the default initial
state (observationally identical to the get-or-create idiom of the
source).  The external OpenAI client is modelled by an oracle parameter:
`none` means the client is unavailable, `some call` means available, and
`call msgs = none` models any exception raised by the remote call.
-/

namespace NpcChat

/-- ASCII lower-casing of a string into its character list, modelling
Python's `text.lower()` on the ASCII texts the keyword rules inspect. -/
def lowerList (s : String) : List Char := s.toList.map Char.toLower

/-- `listHas hay needle` models Python's substring test `needle in hay`. -/
def listHas (hay needle : List Char) : Bool :=
  hay.tails.any (fun t => needle.isPrefixOf t)

/-- `HELP_KEYWORDS` from the source (line 18). -/
def HELP_KEYWORDS : List String :=
  ["help", "where", "how", "quest", "please", "assist", "lost"]

/-- `INSULT_KEYWORDS` from the source (line 19). -/
def INSULT_KEYWORDS : List String :=
  ["stupid", "idiot", "useless", "dumb", "hate", "shut up"]

/-- The de-escalation keyword list inlined at line 44 of the source. -/
def DEESC_KEYWORDS : List String := ["sorry", "please", "thanks"]

/-- `any(insult in text_lower for insult in INSULT_KEYWORDS)` (line 36). -/
def hasInsult (text : String) : Bool :=
  INSULT_KEYWORDS.any (fun k => listHas (lowerList text) k.toList)

/-- `any(help_word in text_lower for help_word in HELP_KEYWORDS) or
text_lower.endswith("?")` (line 40). -/
def hasHelpOrQuestion (text : String) : Bool :=
  HELP_KEYWORDS.any (fun k => listHas (lowerList text) k.toList)
    || (lowerList text).getLast? == some '?'

/-- `any(word in text_lower for word in ["sorry", "please", "thanks"])`
(line 44). -/
def hasDeesc (text : String) : Bool :=
  DEESC_KEYWORDS.any (fun k => listHas (lowerList text) k.toList)

/-- `update_mood` (source lines 31-47): the Mood Engine. -/
def update_mood (text : String) (current_mood : String) : String × String :=
  if hasInsult text then ("angry", "insult_detected")
  else if hasHelpOrQuestion text then ("friendly", "help_or_question")
  else if current_mood == "angry" && hasDeesc text then ("neutral", "deescalated")
  else (current_mood, "no_change")

/-! ## Reply strategy (source lines 49-101) -/

/-- One role-tagged chat turn sent to the remote service. -/
structure Chat where
  role : String
  content : String
deriving DecidableEq

/-- `build_messages` (source lines 49-64): request assembly for the remote
generative service. -/
def build_messages (npc_name mood : String) (history : List String)
    (current_text : String) : List Chat :=
  let system_prompt :=
    "You are " ++ npc_name ++ ", a game NPC. Current mood: " ++ mood ++
      ".\n    Keep replies short (1-2 sentences). Be helpful if friendly, concise if neutral, curt if angry."
  [⟨"system", system_prompt⟩]
    ++ (if history.isEmpty then [] else
        [⟨"user", "Previous messages:\n" ++
            String.intercalate "\n" (history.map (fun msg => "- " ++ msg))⟩])
    ++ [⟨"user", current_text⟩]

/-- `rule_based_reply` (source lines 66-83): the deterministic fallback. -/
def rule_based_reply (mood : String) (text : String) : String :=
  if mood = "angry" then
    if listHas (lowerList text) "sorry".toList then
      "Fine. Head east to the mill."
    else
      "Make it quick. East road leads to the mill."
  else if mood = "friendly" then
    if ["where", "go", "quest"].any (fun w => listHas (lowerList text) w.toList) then
      "Follow the east road to the mill. The elder can help you!"
    else
      "How can I help you today?"
  else
    if ["where", "go", "quest"].any (fun w => listHas (lowerList text) w.toList) then
      "East road goes to the mill. Village center is by the well."
    else
      "What do you need? I can offer directions or information."

/-- Python's `str.strip()`: drop whitespace from both ends. -/
def trimWS (l : List Char) : List Char :=
  ((l.dropWhile Char.isWhitespace).reverse.dropWhile Char.isWhitespace).reverse

/-- `str.strip()` on a `String` (used on the remote reply, line 96). -/
def strTrim (s : String) : String := String.mk (trimWS s.toList)

/-- The remote-service boundary: `none` models `OPENAI_AVAILABLE and client`
being false (no client); `some call` models an available client, where
`call msgs = none` models any exception raised by
`client.chat.completions.create` (network failure, malformed response,
missing content) and `call msgs = some content` a successful completion. -/
def Oracle : Type := Option (List Chat → Option String)

/-- `generate_reply` (source lines 85-101): try the remote strategy, fall
back to `rule_based_reply` on unavailability or failure. -/
def generate_reply (oracle : Oracle) (npc_name mood : String)
    (history : List String) (text model : String) : String × String :=
  match oracle with
  | some call =>
    match call (build_messages npc_name mood history text) with
    | some content => (strTrim content, "openai:" ++ model)
    | none => (rule_based_reply mood text, "fallback")
  | none => (rule_based_reply mood text, "fallback")

/-! ## Timestamp normalizer (source lines 26-29)

`parse_timestamp` strips the raw string, replaces every occurrence of the
character `Z` by `+00:00` (Python's `str.replace` replaces *all*
occurrences), and hands the result to `datetime.fromisoformat`.  We model
`fromisoformat` by `parseISO`, a parser for the grammar
`YYYY-MM-DD[THH[:MM[:SS[.f{1,6}]]]][±HH:MM[:SS[.f{1,6}]]]` with calendar
range checks (month 1-12, day within the month, hour ≤ 23, minute/second
≤ 59, offset hours ≤ 23 and minutes/seconds ≤ 59, year ≥ 1), returning
the instant as a count of microseconds (offset subtracted; a naive
timestamp is taken at offset zero).  As in CPython, the offset — which
may carry seconds and fractional seconds — is located by searching the
part of the string after the date and separator (index 11 onward) for a
`+` or `-` sign. -/

/-- Numeric value of an ASCII digit. -/
def d10 (c : Char) : Nat := c.toNat - '0'.toNat

/-- Value of a digit string, most significant first. -/
def digitsVal (l : List Char) : Nat := l.foldl (fun a c => a * 10 + d10 c) 0

/-- Gregorian leap year. -/
def isLeap (y : Nat) : Bool := (y % 4 == 0 && y % 100 != 0) || y % 400 == 0

/-- Number of days in a month (with leap-February). -/
def daysInMonth (y mo : Nat) : Nat :=
  if mo = 2 then (if isLeap y then 29 else 28)
  else if [4, 6, 9, 11].contains mo then 30
  else 31

/-- Parse the time-of-day part `HH[:MM[:SS[.f{1,6}]]]` into
(hour, minute, second, microsecond). -/
def parseTime : List Char → Option (Nat × Nat × Nat × Nat)
  | [h1, h2] =>
    if h1.isDigit && h2.isDigit && d10 h1 * 10 + d10 h2 ≤ 23 then
      some (d10 h1 * 10 + d10 h2, 0, 0, 0)
    else none
  | [h1, h2, ':', m1, m2] =>
    if [h1, h2, m1, m2].all Char.isDigit && d10 h1 * 10 + d10 h2 ≤ 23
        && d10 m1 * 10 + d10 m2 ≤ 59 then
      some (d10 h1 * 10 + d10 h2, d10 m1 * 10 + d10 m2, 0, 0)
    else none
  | [h1, h2, ':', m1, m2, ':', s1, s2] =>
    if [h1, h2, m1, m2, s1, s2].all Char.isDigit && d10 h1 * 10 + d10 h2 ≤ 23
        && d10 m1 * 10 + d10 m2 ≤ 59 && d10 s1 * 10 + d10 s2 ≤ 59 then
      some (d10 h1 * 10 + d10 h2, d10 m1 * 10 + d10 m2, d10 s1 * 10 + d10 s2, 0)
    else none
  | h1 :: h2 :: ':' :: m1 :: m2 :: ':' :: s1 :: s2 :: '.' :: frac =>
    if [h1, h2, m1, m2, s1, s2].all Char.isDigit && d10 h1 * 10 + d10 h2 ≤ 23
        && d10 m1 * 10 + d10 m2 ≤ 59 && d10 s1 * 10 + d10 s2 ≤ 59
        && !frac.isEmpty && frac.length ≤ 6 && frac.all Char.isDigit then
      some (d10 h1 * 10 + d10 h2, d10 m1 * 10 + d10 m2, d10 s1 * 10 + d10 s2,
        digitsVal frac * 10 ^ (6 - frac.length))
    else none
  | _ => none

/-- Parse `YYYY-MM-DD` optionally followed by `T` and a time part, into
(year, month, day, hour, minute, second, microsecond). -/
def parseDateTime : List Char → Option (Nat × Nat × Nat × Nat × Nat × Nat × Nat)
  | [y1, y2, y3, y4, '-', o1, o2, '-', e1, e2] =>
    if [y1, y2, y3, y4, o1, o2, e1, e2].all Char.isDigit then
      let y := digitsVal [y1, y2, y3, y4]
      let mo := d10 o1 * 10 + d10 o2
      let d := d10 e1 * 10 + d10 e2
      if 1 ≤ y && 1 ≤ mo && mo ≤ 12 && 1 ≤ d && d ≤ daysInMonth y mo then
        some (y, mo, d, 0, 0, 0, 0)
      else none
    else none
  | y1 :: y2 :: y3 :: y4 :: '-' :: o1 :: o2 :: '-' :: e1 :: e2 :: 'T' :: rest =>
    if [y1, y2, y3, y4, o1, o2, e1, e2].all Char.isDigit then
      let y := digitsVal [y1, y2, y3, y4]
      let mo := d10 o1 * 10 + d10 o2
      let d := d10 e1 * 10 + d10 e2
      if 1 ≤ y && 1 ≤ mo && mo ≤ 12 && 1 ≤ d && d ≤ daysInMonth y mo then
        match parseTime rest with
        | some (h, mi, s, us) => some (y, mo, d, h, mi, s, us)
        | none => none
      else none
    else none
  | _ => none

/-- Parse a UTC offset `±HH:MM[:SS[.f{1,6}]]` — like the time of day, the
offset may carry seconds and fractional seconds — into signed
microseconds. -/
def parseOffset : List Char → Option Int
  | [sg, h1, h2, ':', m1, m2] =>
    if (sg = '+' || sg = '-') && [h1, h2, m1, m2].all Char.isDigit then
      let hh := d10 h1 * 10 + d10 h2
      let mm := d10 m1 * 10 + d10 m2
      if hh ≤ 23 && mm ≤ 59 then
        let v : Int := ((hh * 60 + mm) * 60 : Nat) * 1000000
        some (if sg = '-' then -v else v)
      else none
    else none
  | [sg, h1, h2, ':', m1, m2, ':', s1, s2] =>
    if (sg = '+' || sg = '-') && [h1, h2, m1, m2, s1, s2].all Char.isDigit then
      let hh := d10 h1 * 10 + d10 h2
      let mm := d10 m1 * 10 + d10 m2
      let ss := d10 s1 * 10 + d10 s2
      if hh ≤ 23 && mm ≤ 59 && ss ≤ 59 then
        let v : Int := ((hh * 60 + mm) * 60 + ss : Nat) * 1000000
        some (if sg = '-' then -v else v)
      else none
    else none
  | sg :: h1 :: h2 :: ':' :: m1 :: m2 :: ':' :: s1 :: s2 :: '.' :: frac =>
    if (sg = '+' || sg = '-') && [h1, h2, m1, m2, s1, s2].all Char.isDigit
        && d10 h1 * 10 + d10 h2 ≤ 23 && d10 m1 * 10 + d10 m2 ≤ 59
        && d10 s1 * 10 + d10 s2 ≤ 59
        && !frac.isEmpty && frac.length ≤ 6 && frac.all Char.isDigit then
      let v : Int := (((d10 h1 * 10 + d10 h2) * 60 + (d10 m1 * 10 + d10 m2)) * 60
        + (d10 s1 * 10 + d10 s2) : Nat) * 1000000
        + (digitsVal frac * 10 ^ (6 - frac.length) : Nat)
      some (if sg = '-' then -v else v)
    else none
  | _ => none

/-- Days since 0001-01-01 of a Gregorian date. -/
def daysFromCivil (y mo d : Nat) : Nat :=
  let pre := y - 1
  let doy := (List.take (mo - 1) [31, 28, 31, 30, 31, 30, 31, 31, 30, 31, 30, 31]).sum
    + (if 2 < mo && isLeap y then 1 else 0) + (d - 1)
  365 * pre + pre / 4 - pre / 100 + pre / 400 + doy

/-- Microseconds of a date-time with the UTC offset (in microseconds)
removed. -/
def toInstant (y mo d h mi s us : Nat) (off : Int) : Int :=
  (((((daysFromCivil y mo d : Int) * 24 + h) * 60 + mi) * 60 + s) * 1000000 + us) - off

/-- The parser modelling `datetime.fromisoformat`: as in CPython, the
offset is located by searching the part of the string after the date and
separator (index 11 onward) for a `+` or `-`; everything before the sign
must be a date-time and everything from the sign onward an offset.
Without such a sign the whole string must be a date-time. -/
def parseISO (l : List Char) : Option Int :=
  match (l.drop 11).findIdx? (fun c => c == '+' || c == '-') with
  | none =>
    match parseDateTime l with
    | some (y, mo, d, h, mi, s, us) => some (toInstant y mo d h mi s us 0)
    | none => none
  | some i =>
    match parseDateTime (l.take (11 + i)), parseOffset (l.drop (11 + i)) with
    | some (y, mo, d, h, mi, s, us), some off => some (toInstant y mo d h mi s us off)
    | _, _ => none

/-- Python's `ts.replace("Z", "+00:00")`: every occurrence of the single
character `Z` is replaced by the six characters `+00:00`. -/
def replaceAllZ : List Char → List Char
  | [] => []
  | c :: rest =>
    if c = 'Z' then '+' :: '0' :: '0' :: ':' :: '0' :: '0' :: replaceAllZ rest
    else c :: replaceAllZ rest

/-- `parse_timestamp` (source lines 26-29): strip, replace `Z` by
`+00:00`, parse; `none` models the `ValueError` (`MalformedTimestamp`). -/
def parse_timestamp (ts : String) : Option Int :=
  parseISO (replaceAllZ (trimWS ts.toList))

/-- The §4.1 transformation exactly as the spec words it: only a literal
*trailing* `Z` is mapped to `+00:00`. -/
def replaceTrailingZ (l : List Char) : List Char :=
  if l.getLast? = some 'Z' then l.dropLast ++ ['+', '0', '0', ':', '0', '0'] else l

/-- The §4.1 contract as the spec words it (for comparison with
`parse_timestamp`): trim surrounding whitespace, map a literal trailing
`Z` to `+00:00`, no other transformation, then require a valid ISO-8601
timestamp. -/
def parse_timestamp_spec (ts : String) : Option Int :=
  parseISO (replaceTrailingZ (trimWS ts.toList))

/-! ## Pipeline orchestrator (source lines 103-167)

File and console I/O mechanics are out of scope (§1 of the spec); the
batch is the already-decoded message list, and the sinks are modelled by
the returned list of log records (`process_messages`) and its JSON
rendering (`consoleOutput`). -/

/-- One input message of the batch. -/
structure Msg where
  player_id : String
  text : String
  timestamp : String
deriving DecidableEq

/-- `PlayerState` (source lines 21-24). -/
structure PlayerState where
  mood : String
  last_messages : List String
deriving DecidableEq

/-- The state a freshly created player starts in (lines 22-24). -/
def initState : PlayerState := ⟨"neutral", []⟩

/-- The log entry assembled at lines 147-157, with the source's field
names. -/
structure LogRecord where
  player_id : String
  timestamp : String
  message_text : String
  npc_reply : String
  state_used : List String
  npc_mood : String
  mood_reason : String
  model_source : String
  npc_name : String
deriving DecidableEq

/-- `state.last_messages[-3:]` (line 132): the context snapshot, the last
(up to) three stored texts. -/
def peekWin (l : List String) : List String := l.drop (l.length - 3)

/-- Lines 142-144: append the text, then truncate to the last three
entries when the window exceeds three. -/
def appendWin (l : List String) (t : String) : List String :=
  if 3 < (l ++ [t]).length then (l ++ [t]).drop ((l ++ [t]).length - 3) else l ++ [t]

/-- The body of the per-message loop (lines 122-157): get-or-create the
player state, snapshot the context, update the mood, store it, generate
the reply from the post-update mood and pre-append snapshot, append the
text, and assemble the log record.  The player-state dictionary is
modelled by a total function defaulting to `initState`. -/
def stepMsg (oracle : Oracle) (npc_name model : String)
    (states : String → PlayerState) (m : Msg) :
    (String → PlayerState) × LogRecord :=
  let st := states m.player_id
  let context := peekWin st.last_messages
  let mr := update_mood m.text st.mood
  let rs := generate_reply oracle npc_name mr.1 context m.text model
  let st2 : PlayerState := ⟨mr.1, appendWin st.last_messages m.text⟩
  (fun pid => if pid = m.player_id then st2 else states pid,
    ⟨m.player_id, m.timestamp, m.text, rs.1, context, mr.1, mr.2, rs.2, npc_name⟩)

/-- The message loop: one log record per message, threading the player
states. -/
def runPipeline (oracle : Oracle) (npc_name model : String) :
    (String → PlayerState) → List Msg → List LogRecord
  | _, [] => []
  | states, m :: rest =>
    (stepMsg oracle npc_name model states m).2 ::
      runPipeline oracle npc_name model (stepMsg oracle npc_name model states m).1 rest

/-- The player states after a list of messages has been processed. -/
def runStates (oracle : Oracle) (npc_name model : String)
    (states : String → PlayerState) (msgs : List Msg) : String → PlayerState :=
  msgs.foldl (fun s m => (stepMsg oracle npc_name model s m).1) states

/-- The comparison used by `messages.sort(key=lambda m: parse_timestamp(m["timestamp"]))`
(line 109), on messages paired with their precomputed keys. -/
def keyRel (a b : Int × Msg) : Prop := a.1 ≤ b.1

instance : DecidableRel keyRel := fun a b => inferInstanceAs (Decidable (a.1 ≤ b.1))

instance : IsTotal (Int × Msg) keyRel := ⟨fun a b => Int.le_total a.1 b.1⟩

instance : IsTrans (Int × Msg) keyRel := ⟨fun _ _ _ h1 h2 => le_trans h1 h2⟩

/-- `process_messages` (lines 103-167): parse every timestamp (Python
computes all sort keys before reordering, so one bad timestamp raises
`ValueError` before anything is processed or emitted), stable-sort by the
parsed instant, then run the per-message loop.  Python's `list.sort` is a
stable sort by the key; it is embedded as insertion sort, which is stable. -/
def process_messages (oracle : Oracle) (npc_name model : String)
    (batch : List Msg) : Except String (List LogRecord) :=
  match batch.mapM (fun m => (parse_timestamp m.timestamp).map (fun k => (k, m))) with
  | none => .error "MalformedTimestamp"
  | some keyed =>
    .ok (runPipeline oracle npc_name model (fun _ => initState)
      ((keyed.insertionSort keyRel).map Prod.snd))

instance {ε α : Type _} [DecidableEq ε] [DecidableEq α] : DecidableEq (Except ε α) :=
  fun x y =>
    match x, y with
    | .ok a, .ok b =>
      if h : a = b then isTrue (by rw [h])
      else isFalse (by intro he; cases he; exact h rfl)
    | .error a, .error b =>
      if h : a = b then isTrue (by rw [h])
      else isFalse (by intro he; cases he; exact h rfl)
    | .ok _, .error _ => isFalse (by intro h; cases h)
    | .error _, .ok _ => isFalse (by intro h; cases h)

/-- JSON values occurring in a log entry. -/
inductive JVal where
  | jstr : String → JVal
  | jarr : List String → JVal
deriving DecidableEq

/-- The dict literal of lines 147-157 in construction order: the JSON
object written to the console (and log file) for one record. -/
def logEntryJson (r : LogRecord) : List (String × JVal) :=
  [("player_id", .jstr r.player_id),
    ("timestamp", .jstr r.timestamp),
    ("message_text", .jstr r.message_text),
    ("npc_reply", .jstr r.npc_reply),
    ("state_used", .jarr r.state_used),
    ("npc_mood", .jstr r.npc_mood),
    ("mood_reason", .jstr r.mood_reason),
    ("model_source", .jstr r.model_source),
    ("npc_name", .jstr r.npc_name)]

/-- The console sink (line 160): one JSON object per processed message,
in processing order. -/
def consoleOutput (oracle : Oracle) (npc_name model : String)
    (batch : List Msg) : Except String (List (List (String × JVal))) :=
  (process_messages oracle npc_name model batch).map (List.map logEntryJson)

end NpcChat

namespace NpcChat

/-! ## Claim C1 -/

/-- **C1, counterexample**: with session mood Angry, processing the text
"Sorry, please help" does *not* produce (Neutral, "deescalated"): the
claimed transition fails on the code. -/
theorem c1_counterexample :
    update_mood "Sorry, please help" "angry" ≠ ("neutral", "deescalated") := by
  decide

/-- **C1, amended**: if a player's session mood is Angry (indeed whatever
the current mood is), processing the message text "Sorry, please help"
transitions the mood to Friendly with mood_reason "help_or_question": the
insult rule does not fire, and the help-or-question rule fires *before*
the de-escalation rule because "please" and "help" are help keywords. -/
theorem c1_amended (current_mood : String) :
    update_mood "Sorry, please help" current_mood
      = ("friendly", "help_or_question") := by
  have h1 : hasInsult "Sorry, please help" = false := by decide
  have h2 : hasHelpOrQuestion "Sorry, please help" = true := by decide
  simp [update_mood, h1, h2]

/-! ## Claim C2 -/

/-- **C2**: the Mood Engine is a pure total function, and for every
(mood, text) pair the four rules of §4.2 are evaluated in the fixed
precedence insult > help-or-question > de-escalation > no-change, the
first matching rule alone determining the result; in particular a text
containing an insult keyword yields (Angry, "insult_detected") even when
de-escalation keywords are present as well. -/
theorem c2_mood_engine_precedence (current_mood text : String) :
    (hasInsult text = true →
      update_mood text current_mood = ("angry", "insult_detected")) ∧
    (hasInsult text = true → hasDeesc text = true →
      update_mood text current_mood = ("angry", "insult_detected")) ∧
    (hasInsult text = false → hasHelpOrQuestion text = true →
      update_mood text current_mood = ("friendly", "help_or_question")) ∧
    (hasInsult text = false → hasHelpOrQuestion text = false →
      current_mood = "angry" → hasDeesc text = true →
      update_mood text current_mood = ("neutral", "deescalated")) ∧
    (hasInsult text = false → hasHelpOrQuestion text = false →
      ¬(current_mood = "angry" ∧ hasDeesc text = true) →
      update_mood text current_mood = (current_mood, "no_change")) := by
  refine ⟨fun h1 => by simp [update_mood, h1],
    fun h1 _ => by simp [update_mood, h1],
    fun h1 h2 => by simp [update_mood, h1, h2],
    fun h1 h2 h3 h4 => by simp [update_mood, h1, h2, h3, h4],
    fun h1 h2 h3 => ?_⟩
  rw [not_and_or] at h3
  rcases h3 with h3 | h3
  · have hb : (current_mood == "angry") = false := beq_eq_false_iff_ne.mpr h3
    simp [update_mood, h1, h2, hb]
  · have hb : hasDeesc text = false := by
      cases h : hasDeesc text
      · rfl
      · exact absurd h h3
    simp [update_mood, h1, h2, hb]

/-- **C2, witness**: each of the four rules fires on a concrete input. -/
theorem c2_witness :
    update_mood "sorry, you are stupid" "neutral" = ("angry", "insult_detected") ∧
    update_mood "I am lost" "neutral" = ("friendly", "help_or_question") ∧
    update_mood "sorry" "angry" = ("neutral", "deescalated") ∧
    update_mood "ok then" "friendly" = ("friendly", "no_change") :=
  ⟨(c2_mood_engine_precedence "neutral" "sorry, you are stupid").2.1
      (by decide) (by decide),
    (c2_mood_engine_precedence "neutral" "I am lost").2.2.1 (by decide) (by decide),
    (c2_mood_engine_precedence "angry" "sorry").2.2.2.1
      (by decide) (by decide) rfl (by decide),
    (c2_mood_engine_precedence "friendly" "ok then").2.2.2.2
      (by decide) (by decide) (by simp)⟩

/-! ## Claim C10 -/

/-- **C10**: the Mood Engine is idempotent in the mood for a fixed text:
re-applying the same message text to the mood it produced never changes
the mood further. -/
theorem c10_mood_idempotent (text current_mood : String) :
    (update_mood text (update_mood text current_mood).1).1
      = (update_mood text current_mood).1 := by
  cases h1 : hasInsult text
  · cases h2 : hasHelpOrQuestion text
    · by_cases h3 : current_mood = "angry"
      · cases h4 : hasDeesc text
        · subst h3; simp [update_mood, h1, h2, h4]
        · subst h3
          have hb : ("neutral" == "angry") = false := by decide
          simp [update_mood, h1, h2, h4, hb]
      · have hb : (current_mood == "angry") = false := beq_eq_false_iff_ne.mpr h3
        simp [update_mood, h1, h2, hb]
    · have hb : ("friendly" == "angry") = false := by decide
      simp [update_mood, h1, h2, hb]
  · simp [update_mood, h1]

/-! ## Claim C5 -/

/-- **C5**: per processed message, the Mood Engine is applied to the
session's pre-update mood, the stored mood is the new mood, the reply is
generated from the post-update mood together with the pre-append context
snapshot, the window receives the message text (so the snapshot used for
the reply excludes it), and the logged npc_mood (and mood_reason) are the
post-update values. -/
theorem c5_per_message_ordering (oracle : Oracle) (npc_name model : String)
    (states : String → PlayerState) (m : Msg) :
    (stepMsg oracle npc_name model states m).2.npc_mood
        = (update_mood m.text (states m.player_id).mood).1 ∧
    (stepMsg oracle npc_name model states m).2.mood_reason
        = (update_mood m.text (states m.player_id).mood).2 ∧
    (stepMsg oracle npc_name model states m).2.state_used
        = peekWin (states m.player_id).last_messages ∧
    ((stepMsg oracle npc_name model states m).2.npc_reply,
        (stepMsg oracle npc_name model states m).2.model_source)
      = generate_reply oracle npc_name
          (update_mood m.text (states m.player_id).mood).1
          (peekWin (states m.player_id).last_messages) m.text model ∧
    ((stepMsg oracle npc_name model states m).1 m.player_id).mood
        = (update_mood m.text (states m.player_id).mood).1 ∧
    ((stepMsg oracle npc_name model states m).1 m.player_id).last_messages
        = appendWin (states m.player_id).last_messages m.text := by
  refine ⟨rfl, rfl, rfl, rfl, ?_, ?_⟩ <;> simp [stepMsg]

/-! ## Claim C7 -/

/-- **C7**: reply generation tries the remote strategy first; when the
remote service is unavailable (`oracle = none`) or its call fails, the
result is the rule-based reply tagged "fallback"; on remote success the
result is the trimmed remote text tagged with the model identifier; the
rule-based reply is a total function that never returns empty text; and
the recorded source tag accurately identifies the producing strategy. -/
theorem c7_reply_strategy (oracle : Oracle) (npc_name mood : String)
    (history : List String) (text model : String) :
    (oracle = none →
      generate_reply oracle npc_name mood history text model
        = (rule_based_reply mood text, "fallback")) ∧
    (∀ call, oracle = some call →
      (∀ content, call (build_messages npc_name mood history text) = some content →
        generate_reply oracle npc_name mood history text model
          = (strTrim content, "openai:" ++ model)) ∧
      (call (build_messages npc_name mood history text) = none →
        generate_reply oracle npc_name mood history text model
          = (rule_based_reply mood text, "fallback"))) ∧
    rule_based_reply mood text ≠ "" ∧
    ((generate_reply oracle npc_name mood history text model).2 = "fallback" →
      (generate_reply oracle npc_name mood history text model).1
        = rule_based_reply mood text) ∧
    ((generate_reply oracle npc_name mood history text model).2 ≠ "fallback" →
      ∃ call content, oracle = some call ∧
        call (build_messages npc_name mood history text) = some content ∧
        generate_reply oracle npc_name mood history text model
          = (strTrim content, "openai:" ++ model)) := by
  have hne : rule_based_reply mood text ≠ "" := by
    unfold rule_based_reply
    split_ifs <;> simp
  have htag : ("openai:" ++ model : String) ≠ "fallback" := by
    intro h
    have hdata := congrArg String.data h
    simp [String.data_append] at hdata
  refine ⟨fun h => by simp [h, generate_reply],
    fun call hc => ⟨fun content hcont => by simp [hc, generate_reply, hcont],
      fun hnone => by simp [hc, generate_reply, hnone]⟩,
    hne, ?_, ?_⟩ <;>
    · match hoc : oracle with
      | none => simp [generate_reply]
      | some call =>
        match hcc : call (build_messages npc_name mood history text) with
        | some content =>
          simp only [generate_reply, hcc]
          intro h
          first
          | exact absurd h htag
          | exact ⟨call, content, rfl, hcc, rfl⟩
        | none => simp [generate_reply, hcc]

/-- **C7, witness**: the three paths at concrete inputs. -/
theorem c7_witness :
    generate_reply (some (fun _ => some " Hello there ")) "Elya the Ranger"
        "neutral" [] "hi" "gpt-3.5-turbo" = ("Hello there", "openai:gpt-3.5-turbo") ∧
    generate_reply (some (fun _ => none)) "Elya the Ranger"
        "angry" [] "sorry" "gpt-3.5-turbo"
      = (rule_based_reply "angry" "sorry", "fallback") ∧
    generate_reply none "Elya the Ranger" "neutral" [] "hi" "gpt-3.5-turbo"
      = (rule_based_reply "neutral" "hi", "fallback") := by
  refine ⟨?_, ?_, ?_⟩
  · have h := ((c7_reply_strategy (some (fun _ => some " Hello there "))
      "Elya the Ranger" "neutral" [] "hi" "gpt-3.5-turbo").2.1 _ rfl).1
      " Hello there " rfl
    rw [h]; decide
  · exact ((c7_reply_strategy (some (fun _ => none)) "Elya the Ranger"
      "angry" [] "sorry" "gpt-3.5-turbo").2.1 _ rfl).2 rfl
  · exact (c7_reply_strategy none "Elya the Ranger"
      "neutral" [] "hi" "gpt-3.5-turbo").1 rfl

/-! ## Claim C8 -/

/-- If one element of a list is mapped to `none`, the whole `mapM` is
`none`. -/
theorem list_mapM_none {α β : Type} (f : α → Option β) (l : List α)
    (h : ∃ x ∈ l, f x = none) : l.mapM f = none := by
  induction l with
  | nil => simp at h
  | cons a t ih =>
    rcases h with ⟨x, hx, hfx⟩
    rw [List.mem_cons] at hx
    rw [List.mapM_cons]
    rcases hx with rfl | hx
    · rw [hfx]; rfl
    · have ht := ih ⟨x, hx, hfx⟩
      cases hfa : f a with
      | none => rfl
      | some v => simp only [ht]; rfl

/-- **C8**: if any message of the batch has an unparsable timestamp, the
whole run aborts with the MalformedTimestamp error — no log record is
emitted and no per-player state is ever built. -/
theorem c8_malformed_timestamp_aborts (oracle : Oracle) (npc_name model : String)
    (batch : List Msg) (h : ∃ m ∈ batch, parse_timestamp m.timestamp = none) :
    process_messages oracle npc_name model batch = .error "MalformedTimestamp" := by
  unfold process_messages
  have hnone : batch.mapM
      (fun m => (parse_timestamp m.timestamp).map (fun k => (k, m))) = none := by
    apply list_mapM_none
    rcases h with ⟨m, hm, hp⟩
    exact ⟨m, hm, by simp [hp]⟩
  rw [hnone]

/-- **C8, witness**: a batch containing the timestamp "not-a-date" aborts
even though another message parses fine. -/
theorem c8_witness :
    process_messages none "Elya the Ranger" "gpt-3.5-turbo"
        [⟨"p1", "hi", "2024-01-01T00:00:00Z"⟩, ⟨"p2", "yo", "not-a-date"⟩]
      = .error "MalformedTimestamp" :=
  c8_malformed_timestamp_aborts none "Elya the Ranger" "gpt-3.5-turbo" _
    ⟨⟨"p2", "yo", "not-a-date"⟩, by simp, by decide⟩

/-! ## Claim C6 -/

/-- **C6, counterexample**: the JSON object the console sink receives does
*not* carry the §3 key set: on a concrete one-message run its keys are not
[player_id, timestamp, message_text, npc_reply, context_used, npc_mood,
mood_reason, reply_source, npc_name] (the code writes `state_used` and
`model_source` instead of `context_used` and `reply_source`). -/
theorem c6_counterexample :
    ¬((consoleOutput none "Elya the Ranger" "gpt-3.5-turbo"
          [⟨"p1", "hi", "2024-01-01T00:00:00Z"⟩]).map
        (List.map (fun e => e.map Prod.fst))
      = .ok [["player_id", "timestamp", "message_text", "npc_reply",
          "context_used", "npc_mood", "mood_reason", "reply_source",
          "npc_name"]]) := by
  decide

/-- **C6, amended**: for every processed message the console sink receives
exactly one JSON object, in processing order, whose keys are exactly
player_id, timestamp (the original string), message_text, npc_reply,
state_used (the pre-append context snapshot), npc_mood, mood_reason,
model_source and npc_name — the source's names for the context-snapshot
and reply-source fields. -/
theorem c6_console_records (oracle : Oracle) (npc_name model : String)
    (batch : List Msg) (recs : List LogRecord)
    (h : process_messages oracle npc_name model batch = .ok recs) :
    consoleOutput oracle npc_name model batch = .ok (recs.map logEntryJson) ∧
    ∀ r ∈ recs, (logEntryJson r).map Prod.fst
      = ["player_id", "timestamp", "message_text", "npc_reply", "state_used",
          "npc_mood", "mood_reason", "model_source", "npc_name"] := by
  refine ⟨by simp [consoleOutput, h, Except.map], fun r _ => rfl⟩

/-- **C6, witness**: the amended statement at a concrete one-message
batch. -/
theorem c6_witness :
    consoleOutput none "Elya the Ranger" "gpt-3.5-turbo"
        [⟨"p1", "hi", "2024-01-01T00:00:00Z"⟩]
      = .ok ([(⟨"p1", "2024-01-01T00:00:00Z", "hi",
          "What do you need? I can offer directions or information.", [],
          "neutral", "no_change", "fallback", "Elya the Ranger"⟩ :
            LogRecord)].map logEntryJson) ∧
    ∀ r ∈ [(⟨"p1", "2024-01-01T00:00:00Z", "hi",
        "What do you need? I can offer directions or information.", [],
        "neutral", "no_change", "fallback", "Elya the Ranger"⟩ : LogRecord)],
      (logEntryJson r).map Prod.fst
        = ["player_id", "timestamp", "message_text", "npc_reply", "state_used",
            "npc_mood", "mood_reason", "model_source", "npc_name"] :=
  c6_console_records none "Elya the Ranger" "gpt-3.5-turbo"
    [⟨"p1", "hi", "2024-01-01T00:00:00Z"⟩] _ (by decide)

/-! ## Claim C4 -/

/-- The context snapshot never exceeds three entries. -/
theorem peekWin_length_le (l : List String) : (peekWin l).length ≤ 3 := by
  simp only [peekWin, List.length_drop]
  omega

/-- `peekWin` is the identity on windows of at most three entries. -/
theorem peekWin_of_short {l : List String} (h : l.length ≤ 3) : peekWin l = l := by
  unfold peekWin
  have h0 : l.length - 3 = 0 := by omega
  rw [h0, List.drop_zero]

/-- Appending to the window keeps exactly the last three texts. -/
theorem appendWin_eq_peekWin (w : List String) (t : String) :
    appendWin w t = peekWin (w ++ [t]) := by
  unfold appendWin peekWin
  by_cases h : 3 < (w ++ [t]).length
  · rw [if_pos h]
  · rw [if_neg h]
    have h0 : (w ++ [t]).length - 3 = 0 := by
      simp only [List.length_append, List.length_singleton] at h ⊢
      omega
    rw [h0, List.drop_zero]

/-- Taking the last three of a windowed prefix is the same as taking the
last three of the full history. -/
theorem peekWin_append_peekWin (a b : List String) :
    peekWin (peekWin a ++ b) = peekWin (a ++ b) := by
  rcases le_or_lt a.length 3 with h | h
  · rw [peekWin_of_short h]
  · unfold peekWin
    rw [List.drop_append_eq_append_drop, List.drop_append_eq_append_drop,
      List.drop_drop]
    simp only [List.length_append, List.length_drop]
    congr 1
    · congr 1
      omega
    · congr 1
      omega

/-- Folding window appends over a text list yields the last three texts. -/
theorem foldl_appendWin_peekWin (ts : List String) :
    ∀ w : List String, ts.foldl appendWin (peekWin w) = peekWin (w ++ ts) := by
  induction ts with
  | nil => intro w; simp
  | cons t ts ih =>
    intro w
    rw [List.foldl_cons, appendWin_eq_peekWin, peekWin_append_peekWin, ih (w ++ [t])]
    simp

/-- How one step rewrites the player-state table. -/
theorem stepMsg_states_apply (oracle : Oracle) (n md : String)
    (states : String → PlayerState) (m : Msg) (pid : String) :
    (stepMsg oracle n md states m).1 pid
      = if pid = m.player_id
        then ⟨(update_mood m.text (states m.player_id).mood).1,
            appendWin (states m.player_id).last_messages m.text⟩
        else states pid := rfl

/-- The per-player window after a run is the fold of that player's texts
in processed order. -/
theorem runStates_window (oracle : Oracle) (n md : String) :
    ∀ (msgs : List Msg) (states : String → PlayerState) (pid : String),
    ((runStates oracle n md states msgs) pid).last_messages
      = ((msgs.filter (fun m => m.player_id == pid)).map Msg.text).foldl appendWin
          ((states pid).last_messages) := by
  intro msgs
  induction msgs with
  | nil => intro states pid; rfl
  | cons m rest ih =>
    intro states pid
    have hstep : runStates oracle n md states (m :: rest)
        = runStates oracle n md ((stepMsg oracle n md states m).1) rest := rfl
    rw [hstep, ih]
    cases h : (m.player_id == pid) with
    | true =>
      have hpid : m.player_id = pid := eq_of_beq h
      rw [List.filter_cons_of_pos (by exact h)]
      simp only [List.map_cons, List.foldl_cons]
      rw [stepMsg_states_apply, if_pos hpid.symm, hpid]
    | false =>
      have hpid : pid ≠ m.player_id := fun hh => by
        rw [beq_eq_false_iff_ne] at h
        exact h hh.symm
      rw [List.filter_cons_of_neg (by simp [h])]
      rw [stepMsg_states_apply, if_neg hpid]

/-- The k-th emitted record is the step applied to the states accumulated
over the first k messages. -/
theorem runPipeline_get? (oracle : Oracle) (n md : String) :
    ∀ (msgs : List Msg) (states : String → PlayerState) (k : Nat)
      (hk : k < msgs.length),
    (runPipeline oracle n md states msgs).get? k
      = some (stepMsg oracle n md (runStates oracle n md states (msgs.take k))
          (msgs.get ⟨k, hk⟩)).2 := by
  intro msgs
  induction msgs with
  | nil => intro states k hk; simp at hk
  | cons m rest ih =>
    intro states k hk
    cases k with
    | zero => rfl
    | succ k2 => exact ih ((stepMsg oracle n md states m).1) k2 (Nat.lt_of_succ_lt_succ hk)

/-- **C4, counterexample**: the snapshot *can* contain the current
message's own text: a player repeating the text "hello" gets a second
snapshot ["hello"], which contains the second message's text. -/
theorem c4_counterexample :
    (process_messages none "Elya the Ranger" "gpt-3.5-turbo"
        [⟨"p1", "hello", "2024-01-01T00:00:00Z"⟩,
         ⟨"p1", "hello", "2024-01-01T00:01:00Z"⟩]).map
      (List.map (fun r => decide (r.message_text ∈ r.state_used)))
      = .ok [false, true] := by
  decide

/-- **C4, amended**: the per-player context window never holds more than 3
entries; after any number of appends it holds exactly the last (up to) 3
appended texts in append order, oldest first; and the snapshot logged for
the k-th processed message is the window state *before* that message's
append — the last (up to) 3 texts the same player sent among the first k
messages — so it never contains the k-th message's own entry, though it
can contain an equal text sent earlier. -/
theorem c4_window_invariant (oracle : Oracle) (npc_name model : String)
    (msgs : List Msg) (pid : String) :
    ((runStates oracle npc_name model (fun _ => initState) msgs) pid).last_messages.length
        ≤ 3 ∧
    ((runStates oracle npc_name model (fun _ => initState) msgs) pid).last_messages
      = peekWin ((msgs.filter (fun m => m.player_id == pid)).map Msg.text) ∧
    ∀ k (hk : k < msgs.length),
      ((runPipeline oracle npc_name model (fun _ => initState) msgs).get? k).map
          LogRecord.state_used
        = some (peekWin (((msgs.take k).filter
            (fun m => m.player_id == (msgs.get ⟨k, hk⟩).player_id)).map Msg.text)) := by
  have hwin : ∀ (msgs2 : List Msg) (pid2 : String),
      ((runStates oracle npc_name model (fun _ => initState) msgs2) pid2).last_messages
        = peekWin ((msgs2.filter (fun m => m.player_id == pid2)).map Msg.text) := by
    intro msgs2 pid2
    rw [runStates_window]
    have hinit : ((fun _ => initState) pid2).last_messages = peekWin [] := rfl
    rw [hinit, foldl_appendWin_peekWin]
    simp
  refine ⟨?_, hwin msgs pid, ?_⟩
  · rw [hwin]
    exact peekWin_length_le _
  · intro k hk
    rw [runPipeline_get? oracle npc_name model msgs _ k hk]
    have hused : (stepMsg oracle npc_name model
          (runStates oracle npc_name model (fun _ => initState) (msgs.take k))
          (msgs.get ⟨k, hk⟩)).2.state_used
        = peekWin (((runStates oracle npc_name model (fun _ => initState)
            (msgs.take k)) (msgs.get ⟨k, hk⟩).player_id).last_messages) := rfl
    simp only [Option.map_some']
    rw [hused, hwin, peekWin_of_short (peekWin_length_le _)]

/-- **C4, witness**: after four appends by one player the window holds the
last three texts, and the fourth record's snapshot is the pre-append
window. -/
theorem c4_witness :
    ((runStates none "Elya the Ranger" "gpt-3.5-turbo" (fun _ => initState)
        [⟨"p1", "a", "t"⟩, ⟨"p1", "b", "t"⟩, ⟨"p1", "c", "t"⟩, ⟨"p1", "d", "t"⟩])
          "p1").last_messages.length ≤ 3 ∧
    ((runStates none "Elya the Ranger" "gpt-3.5-turbo" (fun _ => initState)
        [⟨"p1", "a", "t"⟩, ⟨"p1", "b", "t"⟩, ⟨"p1", "c", "t"⟩, ⟨"p1", "d", "t"⟩])
          "p1").last_messages
      = peekWin (([⟨"p1", "a", "t"⟩, ⟨"p1", "b", "t"⟩, ⟨"p1", "c", "t"⟩,
          ⟨"p1", "d", "t"⟩] : List Msg).filter
            (fun m => m.player_id == "p1") |>.map Msg.text) ∧
    ∀ k (hk : k < ([⟨"p1", "a", "t"⟩, ⟨"p1", "b", "t"⟩, ⟨"p1", "c", "t"⟩,
        ⟨"p1", "d", "t"⟩] : List Msg).length),
      ((runPipeline none "Elya the Ranger" "gpt-3.5-turbo" (fun _ => initState)
          [⟨"p1", "a", "t"⟩, ⟨"p1", "b", "t"⟩, ⟨"p1", "c", "t"⟩,
            ⟨"p1", "d", "t"⟩]).get? k).map LogRecord.state_used
        = some (peekWin (((([⟨"p1", "a", "t"⟩, ⟨"p1", "b", "t"⟩, ⟨"p1", "c", "t"⟩,
            ⟨"p1", "d", "t"⟩] : List Msg).take k).filter
              (fun m => m.player_id == (([⟨"p1", "a", "t"⟩, ⟨"p1", "b", "t"⟩,
                ⟨"p1", "c", "t"⟩, ⟨"p1", "d", "t"⟩] : List Msg).get
                  ⟨k, hk⟩).player_id)).map Msg.text)) :=
  c4_window_invariant none "Elya the Ranger" "gpt-3.5-turbo"
    [⟨"p1", "a", "t"⟩, ⟨"p1", "b", "t"⟩, ⟨"p1", "c", "t"⟩, ⟨"p1", "d", "t"⟩] "p1"

/-! ## Claim C3 -/

/-- Decomposition of a successful key-computation pass: the keyed list
projects back onto the batch, and each pair carries its message's parsed
timestamp. -/
theorem mapM_keyed (batch : List Msg) :
    ∀ keyed,
      batch.mapM (fun m => (parse_timestamp m.timestamp).map (fun k => (k, m)))
          = some keyed →
        keyed.map Prod.snd = batch
          ∧ ∀ p ∈ keyed, parse_timestamp p.2.timestamp = some p.1 := by
  induction batch with
  | nil =>
    intro keyed h
    rw [List.mapM_nil] at h
    cases h
    exact ⟨rfl, by simp⟩
  | cons m rest ih =>
    intro keyed h
    rw [List.mapM_cons] at h
    cases hp : parse_timestamp m.timestamp with
    | none => simp [hp] at h
    | some k =>
      cases hr : rest.mapM
          (fun m => (parse_timestamp m.timestamp).map (fun k => (k, m))) with
      | none =>
        simp only [hp, Option.map_some'] at h
        simp only [hr] at h
        simp at h
      | some tl =>
        simp only [hp, hr, Option.map_some'] at h
        have hkeyed : keyed = (k, m) :: tl := by
          cases h
          rfl
        obtain ⟨h1, h2⟩ := ih tl hr
        subst hkeyed
        refine ⟨by simp [h1], ?_⟩
        intro p hp2
        rcases List.mem_cons.mp hp2 with rfl | hp3
        · exact hp
        · exact h2 p hp3

/-- The emitted records carry the processed messages' original timestamp
strings, in order. -/
theorem runPipeline_map_timestamp (oracle : Oracle) (n md : String) :
    ∀ (msgs : List Msg) (states : String → PlayerState),
    (runPipeline oracle n md states msgs).map LogRecord.timestamp
      = msgs.map Msg.timestamp := by
  intro msgs
  induction msgs with
  | nil => intro states; rfl
  | cons m rest ih =>
    intro states
    simp only [runPipeline, List.map_cons, ih]
    rfl

/-- **C3**: on a batch whose timestamps all parse, the emitted records are
in non-decreasing parsed-timestamp order, and the run processes a
reordering of the batch in which, for every instant, the messages carrying
that instant appear exactly as they do in the input (the sort is
stable). -/
theorem c3_chronological_stable (oracle : Oracle) (npc_name model : String)
    (batch : List Msg) (recs : List LogRecord)
    (h : process_messages oracle npc_name model batch = .ok recs) :
    recs.Pairwise (fun r1 r2 => ∃ k1 k2,
      parse_timestamp r1.timestamp = some k1 ∧
      parse_timestamp r2.timestamp = some k2 ∧ k1 ≤ k2) ∧
    ∃ ms : List Msg,
      recs = runPipeline oracle npc_name model (fun _ => initState) ms ∧
      recs.map LogRecord.timestamp = ms.map Msg.timestamp ∧
      ∀ k : Int, ms.filter (fun m => parse_timestamp m.timestamp == some k)
        = batch.filter (fun m => parse_timestamp m.timestamp == some k) := by
  unfold process_messages at h
  cases hmap : batch.mapM
      (fun m => (parse_timestamp m.timestamp).map (fun k => (k, m))) with
  | none => rw [hmap] at h; exact absurd h (by simp)
  | some keyed =>
    rw [hmap] at h
    obtain ⟨hsnd, hkeys⟩ := mapM_keyed batch keyed hmap
    have hrecs : recs
        = runPipeline oracle npc_name model (fun _ => initState)
            ((keyed.insertionSort keyRel).map Prod.snd) := (Except.ok.inj h).symm
    have hmem : ∀ p ∈ keyed.insertionSort keyRel,
        parse_timestamp p.2.timestamp = some p.1 := fun p hp =>
      hkeys p ((List.mem_insertionSort keyRel).mp hp)
    have hpair2 : (keyed.insertionSort keyRel).Pairwise (fun p q => ∃ k1 k2,
        parse_timestamp p.2.timestamp = some k1 ∧
        parse_timestamp q.2.timestamp = some k2 ∧ k1 ≤ k2) :=
      (List.sorted_insertionSort keyRel keyed).imp_of_mem
        (fun hp hq hrel => ⟨_, _, hmem _ hp, hmem _ hq, hrel⟩)
    have hts : recs.map LogRecord.timestamp
        = ((keyed.insertionSort keyRel).map Prod.snd).map Msg.timestamp := by
      rw [hrecs]
      exact runPipeline_map_timestamp oracle npc_name model _ _
    constructor
    · have hmapped : (recs.map LogRecord.timestamp).Pairwise (fun t1 t2 => ∃ k1 k2,
          parse_timestamp t1 = some k1 ∧ parse_timestamp t2 = some k2 ∧ k1 ≤ k2) := by
        rw [hts, List.pairwise_map, List.pairwise_map]
        exact hpair2
      exact List.pairwise_map.mp hmapped
    · refine ⟨(keyed.insertionSort keyRel).map Prod.snd, hrecs, hts, ?_⟩
      intro k
      have hcongr : ∀ (l : List (Int × Msg)),
          (∀ p ∈ l, parse_timestamp p.2.timestamp = some p.1) →
          l.filter ((fun m : Msg => parse_timestamp m.timestamp == some k) ∘ Prod.snd)
            = l.filter (fun p => p.1 == k) := by
        intro l hl
        apply List.filter_congr
        intro p hp
        simp only [Function.comp]
        rw [hl p hp]
        rfl
      have hcpair : (keyed.filter (fun p => p.1 == k)).Pairwise keyRel := by
        apply List.pairwise_of_forall_mem_list
        intro a ha b hb
        have ha2 : a.1 = k := eq_of_beq (List.mem_filter.mp ha).2
        have hb2 : b.1 = k := eq_of_beq (List.mem_filter.mp hb).2
        show a.1 ≤ b.1
        rw [ha2, hb2]
      have hsub : (keyed.filter (fun p => p.1 == k)).Sublist
          (keyed.insertionSort keyRel) :=
        List.sublist_insertionSort hcpair (List.filter_sublist keyed)
      have hperm : ((keyed.insertionSort keyRel).filter (fun p => p.1 == k)).Perm
          (keyed.filter (fun p => p.1 == k)) :=
        (List.perm_insertionSort keyRel keyed).filter _
      have hsub2 : (keyed.filter (fun p => p.1 == k)).Sublist
          ((keyed.insertionSort keyRel).filter (fun p => p.1 == k)) := by
        have hself : (keyed.filter (fun p => p.1 == k)).filter (fun p => p.1 == k)
            = keyed.filter (fun p => p.1 == k) :=
          List.filter_eq_self.mpr (fun a ha => (List.mem_filter.mp ha).2)
        have hf := List.Sublist.filter (fun p => p.1 == k) hsub
        rwa [hself] at hf
      have hcore : keyed.filter (fun p => p.1 == k)
          = (keyed.insertionSort keyRel).filter (fun p => p.1 == k) :=
        hsub2.eq_of_length hperm.length_eq.symm
      rw [List.filter_map, hcongr _ hmem, ← hcore, ← hsnd, List.filter_map,
        hcongr _ hkeys]

/-- **C3, witness**: a batch given out of order, with two distinct players
tied on the same instant, is emitted in chronological order with the tie
in input order. -/
theorem c3_witness :
    ([⟨"p1", "2024-01-01T00:01:00Z", "a",
        "What do you need? I can offer directions or information.", [],
        "neutral", "no_change", "fallback", "Elya the Ranger"⟩,
      ⟨"p2", "2024-01-01T00:02:00Z", "b",
        "What do you need? I can offer directions or information.", [],
        "neutral", "no_change", "fallback", "Elya the Ranger"⟩,
      ⟨"p3", "2024-01-01T00:02:00Z", "c",
        "What do you need? I can offer directions or information.", [],
        "neutral", "no_change", "fallback", "Elya the Ranger"⟩] :
          List LogRecord).Pairwise (fun r1 r2 => ∃ k1 k2,
      parse_timestamp r1.timestamp = some k1 ∧
      parse_timestamp r2.timestamp = some k2 ∧ k1 ≤ k2) ∧
    ∃ ms : List Msg,
      ([⟨"p1", "2024-01-01T00:01:00Z", "a",
          "What do you need? I can offer directions or information.", [],
          "neutral", "no_change", "fallback", "Elya the Ranger"⟩,
        ⟨"p2", "2024-01-01T00:02:00Z", "b",
          "What do you need? I can offer directions or information.", [],
          "neutral", "no_change", "fallback", "Elya the Ranger"⟩,
        ⟨"p3", "2024-01-01T00:02:00Z", "c",
          "What do you need? I can offer directions or information.", [],
          "neutral", "no_change", "fallback", "Elya the Ranger"⟩] :
            List LogRecord)
        = runPipeline none "Elya the Ranger" "gpt-3.5-turbo"
            (fun _ => initState) ms ∧
      ([⟨"p1", "2024-01-01T00:01:00Z", "a",
          "What do you need? I can offer directions or information.", [],
          "neutral", "no_change", "fallback", "Elya the Ranger"⟩,
        ⟨"p2", "2024-01-01T00:02:00Z", "b",
          "What do you need? I can offer directions or information.", [],
          "neutral", "no_change", "fallback", "Elya the Ranger"⟩,
        ⟨"p3", "2024-01-01T00:02:00Z", "c",
          "What do you need? I can offer directions or information.", [],
          "neutral", "no_change", "fallback", "Elya the Ranger"⟩] :
            List LogRecord).map LogRecord.timestamp = ms.map Msg.timestamp ∧
      ∀ k : Int, ms.filter (fun m => parse_timestamp m.timestamp == some k)
        = ([⟨"p2", "b", "2024-01-01T00:02:00Z"⟩,
            ⟨"p1", "a", "2024-01-01T00:01:00Z"⟩,
            ⟨"p3", "c", "2024-01-01T00:02:00Z"⟩] : List Msg).filter
              (fun m => parse_timestamp m.timestamp == some k) :=
  c3_chronological_stable none "Elya the Ranger" "gpt-3.5-turbo"
    [⟨"p2", "b", "2024-01-01T00:02:00Z"⟩,
      ⟨"p1", "a", "2024-01-01T00:01:00Z"⟩,
      ⟨"p3", "c", "2024-01-01T00:02:00Z"⟩] _ (by decide)

/-! ## Claim C9 -/

/-- `replace` is the identity on strings without a `Z`. -/
theorem replaceAllZ_of_not_mem : ∀ {u : List Char}, 'Z' ∉ u → replaceAllZ u = u := by
  intro u hu
  induction u with
  | nil => rfl
  | cons c rest ih =>
    rw [List.mem_cons, not_or] at hu
    have hc : ¬c = 'Z' := fun h => hu.1 h.symm
    simp only [replaceAllZ, if_neg hc, ih hu.2]

/-- `replace` distributes over append. -/
theorem replaceAllZ_append : ∀ (a b : List Char),
    replaceAllZ (a ++ b) = replaceAllZ a ++ replaceAllZ b := by
  intro a b
  induction a with
  | nil => rfl
  | cons c rest ih =>
    by_cases hc : c = 'Z' <;> simp [replaceAllZ, hc, ih, List.cons_append]

/-- A character that is not a digit, `:` or `.` rules out the time
grammar. -/
theorem parseTime_none (c : Char) (hd : c.isDigit = false) (hc : c ≠ ':')
    (hp2 : c ≠ '.') : ∀ rest, c ∈ rest → parseTime rest = none := by
  intro rest hmem
  have hd2 : ¬c.isDigit = true := by simp [hd]
  unfold parseTime
  split <;> try rfl
  · simp only [List.mem_cons, List.not_mem_nil, or_false] at hmem
    rcases hmem with rfl | rfl <;> simp [hd]
  · simp only [List.mem_cons, List.not_mem_nil, or_false] at hmem
    rcases hmem with rfl | rfl | rfl | rfl | rfl <;>
      first
      | exact absurd rfl hc
      | simp [hd]
  · simp only [List.mem_cons, List.not_mem_nil, or_false] at hmem
    rcases hmem with rfl | rfl | rfl | rfl | rfl | rfl | rfl | rfl <;>
      first
      | exact absurd rfl hc
      | simp [hd]
  · simp only [List.mem_cons] at hmem
    rcases hmem with rfl | rfl | rfl | rfl | rfl | rfl | rfl | rfl | rfl | hfr
    · simp [hd]
    · simp [hd]
    · exact absurd rfl hc
    · simp [hd]
    · simp [hd]
    · exact absurd rfl hc
    · simp [hd]
    · simp [hd]
    · exact absurd rfl hp2
    · simp [List.all_eq_false.mpr ⟨c, hfr, hd2⟩]

/-- A character that is not a digit, `-`, `T`, `:` or `.` rules out the
date-time grammar. -/
theorem parseDateTime_none (c : Char) (hd : c.isDigit = false) (hm : c ≠ '-')
    (hT : c ≠ 'T') (hc : c ≠ ':') (hp2 : c ≠ '.') :
    ∀ l, c ∈ l → parseDateTime l = none := by
  intro l hmem
  have hd2 : ¬c.isDigit = true := by simp [hd]
  unfold parseDateTime
  split <;> try rfl
  · simp only [List.mem_cons, List.not_mem_nil, or_false] at hmem
    rcases hmem with rfl | rfl | rfl | rfl | rfl | rfl | rfl | rfl | rfl | rfl <;>
      first
      | exact absurd rfl hm
      | simp [hd]
  · simp only [List.mem_cons] at hmem
    rcases hmem with rfl | rfl | rfl | rfl | rfl | rfl | rfl | rfl | rfl | rfl | rfl | hrest
    · simp [hd]
    · simp [hd]
    · simp [hd]
    · simp [hd]
    · exact absurd rfl hm
    · simp [hd]
    · simp [hd]
    · exact absurd rfl hm
    · simp [hd]
    · simp [hd]
    · exact absurd rfl hT
    · simp only [parseTime_none c hd hc hp2 _ hrest]
      split
      · split
        · rfl
        · rfl
      · rfl

/-- A character that is not a digit, `+`, `-`, `:` or `.` rules out the
offset grammar. -/
theorem parseOffset_none (c : Char) (hd : c.isDigit = false) (hplus : c ≠ '+')
    (hminus : c ≠ '-') (hc : c ≠ ':') (hp2 : c ≠ '.') :
    ∀ o, c ∈ o → parseOffset o = none := by
  intro o hmem
  have hd2 : ¬c.isDigit = true := by simp [hd]
  unfold parseOffset
  split <;> try rfl
  · simp only [List.mem_cons, List.not_mem_nil, or_false] at hmem
    rcases hmem with rfl | rfl | rfl | rfl | rfl | rfl
    · simp [hplus, hminus]
    · simp [hd]
    · simp [hd]
    · exact absurd rfl hc
    · simp [hd]
    · simp [hd]
  · simp only [List.mem_cons, List.not_mem_nil, or_false] at hmem
    rcases hmem with rfl | rfl | rfl | rfl | rfl | rfl | rfl | rfl | rfl
    · simp [hplus, hminus]
    · simp [hd]
    · simp [hd]
    · exact absurd rfl hc
    · simp [hd]
    · simp [hd]
    · exact absurd rfl hc
    · simp [hd]
    · simp [hd]
  · simp only [List.mem_cons] at hmem
    rcases hmem with rfl | rfl | rfl | rfl | rfl | rfl | rfl | rfl | rfl | rfl | hfr
    · simp [hplus, hminus]
    · simp [hd]
    · simp [hd]
    · exact absurd rfl hc
    · simp [hd]
    · simp [hd]
    · exact absurd rfl hc
    · simp [hd]
    · simp [hd]
    · exact absurd rfl hp2
    · simp [List.all_eq_false.mpr ⟨c, hfr, hd2⟩]

/-- No string containing a `Z` is a valid ISO-8601 timestamp: `Z` fits
neither the date-time nor the offset grammar. -/
theorem parseISO_none_of_memZ {l : List Char} (hZ : 'Z' ∈ l) :
    parseISO l = none := by
  unfold parseISO
  split
  · rw [parseDateTime_none 'Z' (by decide) (by decide) (by decide) (by decide)
      (by decide) l hZ]
  · rename_i i heq
    have hsplitZ : 'Z' ∈ l.take (11 + i) ++ l.drop (11 + i) := by
      rw [List.take_append_drop]
      exact hZ
    rcases List.mem_append.mp hsplitZ with htake | hdrop
    · rw [parseDateTime_none 'Z' (by decide) (by decide) (by decide) (by decide)
        (by decide) _ htake]
    · rw [parseOffset_none 'Z' (by decide) (by decide) (by decide) (by decide)
        (by decide) _ hdrop]
      cases parseDateTime (l.take (11 + i)) <;> rfl

/-- **C9, counterexample**: the normalizer does *not* succeed exactly on
strings that are valid ISO-8601 after trimming and mapping a trailing
`Z`.  On "2024-01-01T00:00:00Z:00" the code replaces the *interior* `Z`,
producing "2024-01-01T00:00:00+00:00:00", which parses (the offset
grammar allows seconds), even though the string has no trailing `Z` and
is not a valid ISO-8601 timestamp as it stands — so the claim requires
this input to fail with MalformedTimestamp, yet the program accepts
it. -/
theorem c9_counterexample :
    (parse_timestamp "2024-01-01T00:00:00Z:00").isSome = true ∧
    parse_timestamp_spec "2024-01-01T00:00:00Z:00" = none := by
  decide

/-- **C9, amended**: timestamp normalization trims surrounding whitespace
and maps *every* occurrence of `Z` (not only a trailing one) to `+00:00`,
then requires a valid ISO-8601 timestamp.  It agrees with the spec's
trailing-only reading on every input with no `Z` before the final
character — in particular a lone trailing `Z` behaves exactly as
specified — and on an input with an earlier `Z` the trailing-only reading
always fails, while the code may succeed by rewriting that interior
`Z`. -/
theorem c9_amended (ts : String) :
    parse_timestamp ts = parseISO (replaceAllZ (trimWS ts.toList)) ∧
    ('Z' ∉ (trimWS ts.toList).dropLast →
      parse_timestamp ts = parse_timestamp_spec ts) ∧
    ('Z' ∈ (trimWS ts.toList).dropLast →
      parse_timestamp_spec ts = none) := by
  refine ⟨rfl, ?_, ?_⟩
  · intro hnZ
    unfold parse_timestamp parse_timestamp_spec
    set t := trimWS ts.toList with ht
    by_cases hZ : 'Z' ∈ t
    · have hne : t ≠ [] := List.ne_nil_of_mem hZ
      have hlastZ : t.getLast hne = 'Z' := by
        have h1 := List.dropLast_append_getLast hne
        have h2 : 'Z' ∈ t.dropLast ++ [t.getLast hne] := by
          rw [h1]
          exact hZ
        rcases List.mem_append.mp h2 with h3 | h3
        · exact absurd h3 hnZ
        · exact (List.mem_singleton.mp h3).symm
      have hLast : t.getLast? = some 'Z' := by
        rw [List.getLast?_eq_getLast t hne, hlastZ]
      have hsplit : t = t.dropLast ++ ['Z'] := by
        have h1 := List.dropLast_append_getLast hne
        rw [hlastZ] at h1
        exact h1.symm
      simp only [replaceTrailingZ, if_pos hLast]
      have hcode : replaceAllZ t = t.dropLast ++ ['+', '0', '0', ':', '0', '0'] := by
        conv_lhs => rw [hsplit]
        rw [replaceAllZ_append, replaceAllZ_of_not_mem hnZ]
        rfl
      rw [hcode]
    · rw [replaceAllZ_of_not_mem hZ]
      simp only [replaceTrailingZ,
        if_neg (fun hl => hZ (List.mem_of_mem_getLast? (Option.mem_def.mpr hl)))]
  · intro hZd
    unfold parse_timestamp_spec
    simp only [replaceTrailingZ]
    split
    · exact parseISO_none_of_memZ (List.mem_append_left _ hZd)
    · exact parseISO_none_of_memZ ((List.dropLast_sublist _).mem hZd)

/-- **C9, witness**: agreement on a trailing-`Z` input, and the
trailing-only reading failing on an interior-`Z` input. -/
theorem c9_witness :
    parse_timestamp "2024-03-01T10:05:00Z "
        = parse_timestamp_spec "2024-03-01T10:05:00Z " ∧
    parse_timestamp_spec " 2024-01-01T00:00Z:30" = none :=
  ⟨(c9_amended "2024-03-01T10:05:00Z ").2.1 (by decide),
    (c9_amended " 2024-01-01T00:00Z:30").2.2 (by decide)⟩

end NpcChat
